import Mathlib

/-!
Shallow embedding of the replit-scraper repository's core logic:
the Brazilian-locale numeric normalizer (`parseNumber`), the
fundamentus table extractor (`scrapeRow` / `scrapeTable`), the
state-owned classifier (`isLikelyStateOwned`), the storage layer
(`upsertStock`, `upsertFundamental`, `getStocks`) and the scrape
route handler (`snapshotOf`, `handleScrape`).

Numeric cell values are modelled as exact rationals (`ℚ`): the
repository's claims are about decimal values, not float rounding.
JavaScript's stable `Array.prototype.sort` (stability guaranteed by
ES2019) is modelled by a stable insertion sort (`ssort`).
-/

namespace Scraper

/-- Characters JavaScript `String.prototype.trim` removes (the inputs in
scope only ever carry plain ASCII whitespace). -/
def isWS (c : Char) : Bool :=
  c = ' ' || c = '\t' || c = '\n' || c = '\r'

/-- Trim whitespace from both ends of a character list (JS `trim`). -/
def trimChars (l : List Char) : List Char :=
  ((l.dropWhile isWS).reverse.dropWhile isWS).reverse

/-- JS `String.prototype.trim` on a Lean string. -/
def trimS (s : String) : String :=
  ⟨trimChars s.data⟩

/-- JS `str.replace(c, "")` with a one-character pattern: removes the
first occurrence of `c` only. -/
def removeFirst (c : Char) : List Char → List Char
  | [] => []
  | x :: xs => if x = c then xs else x :: removeFirst c xs

/-- JS `str.replace(c, d)` with one-character pattern and replacement:
replaces the first occurrence of `c` only. -/
def replaceFirst (c d : Char) : List Char → List Char
  | [] => []
  | x :: xs => if x = c then d :: xs else x :: replaceFirst c d xs

/-- Does `hay` start with `needle`? -/
def startsHere (needle hay : List Char) : Bool :=
  match needle, hay with
  | [], _ => true
  | _ :: _, [] => false
  | a :: as, b :: bs => a = b && startsHere as bs

/-- JS `hay.includes(needle)`: substring containment. -/
def containsSub (needle : List Char) : List Char → Bool
  | [] => needle.isEmpty
  | c :: rest => startsHere needle (c :: rest) || containsSub needle rest

/-- Read a maximal run of decimal digits: returns the accumulated value,
the number of digits consumed, and the rest of the input. -/
def readDigits : List Char → Nat → Nat → Nat × Nat × List Char
  | [], acc, n => (acc, n, [])
  | c :: rest, acc, n =>
      if c.isDigit then readDigits rest (acc * 10 + (c.toNat - 48)) (n + 1)
      else (acc, n, c :: rest)

/-- Body of an exponent suffix after the `e`/`E` marker: an optional
sign and a digit run.  JS `parseFloat` ignores a dangling exponent
marker with no digits (longest valid prefix), so a malformed exponent
contributes `(false, 0)`. -/
def readExpTail (rest : List Char) : Bool × Nat :=
  let (neg, rest') :=
    match rest with
    | '-' :: r => (true, r)
    | '+' :: r => (false, r)
    | _ => (false, rest)
  let (v, n, _) := readDigits rest' 0 0
  if n = 0 then (false, 0) else (neg, v)

/-- Read an optional exponent suffix `[eE][+-]?digits`. -/
def readExp (l : List Char) : Bool × Nat :=
  match l with
  | 'e' :: rest => readExpTail rest
  | 'E' :: rest => readExpTail rest
  | _ => (false, 0)

/-- Model of JS `parseFloat` restricted to finite decimal literals:
skips leading whitespace, reads an optional sign, a digit run, an
optional fraction and an optional exponent, ignores any trailing
garbage, and returns `none` when no digits were consumed (NaN).  The
`Infinity` literal is not representable in `ℚ` and never arises from
the scraped numeric cells, so it is out of the model. -/
def parseFloatQ (l : List Char) : Option ℚ :=
  let l := l.dropWhile isWS
  let (neg, l) :=
    match l with
    | '-' :: r => (true, r)
    | '+' :: r => (false, r)
    | _ => (false, l)
  let (ip, n1, l) := readDigits l 0 0
  let (fp, n2, l) :=
    match l with
    | '.' :: r => readDigits r 0 0
    | _ => (0, 0, l)
  if n1 = 0 && n2 = 0 then none
  else
    let mant : ℚ := (ip : ℚ) + (fp : ℚ) / (10 : ℚ) ^ n2
    let (eneg, ev) := readExp l
    let mant := if eneg then mant / (10 : ℚ) ^ ev else mant * (10 : ℚ) ^ ev
    some (if neg then -mant else mant)

/-- The cleaning pipeline inside `parseNumber` (scraper.ts): strip the
first `%`, trim, delete every `.` (thousands separators), then turn the
first `,` into a decimal point. -/
def cleanResidue (value : String) : List Char :=
  let cleaned := trimChars (removeFirst '%' value.data)
  let cleaned := cleaned.filter (fun c => c ≠ '.')
  replaceFirst ',' '.' cleaned

/-- Model of `parseNumber` (scraper.ts): Brazilian-format numeric cell to
nullable rational.  Empty string, `-` and `n/a` are null sentinels;
otherwise the cleaned residue goes through `parseFloat`, with a parse
failure mapped to `none` instead of an error. -/
def parseNumber (value : String) : Option ℚ :=
  if value = "" || value = "-" || value = "n/a" then none
  else parseFloatQ (cleanResidue value)

/-- One `td` of the results table: its text content, plus the `title`
attribute of an anchor inside it when one is present (only consulted on
the ticker cell).  A cell whose anchor has no `title`, or no anchor at
all, carries `none`; both fall back to the ticker in the source. -/
structure Cell where
  text : String
  linkTitle : Option String
deriving DecidableEq, Repr

/-- A `tbody tr` of the results table, as its list of `td` cells. -/
abbrev TableRow := List Cell

/-- Text of cell `i`, as `$(cells[i]).text()`: cheerio yields the empty string for an
out-of-range index. -/
def cellText (cells : TableRow) (i : Nat) : String :=
  match cells.get? i with
  | some c => c.text
  | none => ""

/-- The `ScrapedStock` record of scraper.ts. -/
structure ScrapedStock where
  ticker : String
  name : String
  sector : String
  pl : Option ℚ
  pvp : Option ℚ
  roe : Option ℚ
  roic : Option ℚ
  divYield : Option ℚ
  ebitEv : Option ℚ
  netProfit : Option ℚ
  liquidity : Option ℚ
deriving DecidableEq, Repr

/-- The per-row extraction body of `scrapeFundamentus`: skip rows with
no cells and rows whose trimmed ticker cell is empty; otherwise read
the fixed positional columns through `parseNumber`. -/
def scrapeRow (cells : TableRow) : Option ScrapedStock :=
  if cells.length = 0 then none
  else
    let ticker := trimS (cellText cells 0)
    if ticker = "" then none
    else
      let name :=
        match (cells.get? 0).bind Cell.linkTitle with
        | some t => if t = "" then ticker else t
        | none => ticker
      some {
        ticker := ticker
        name := name
        sector := "Unknown"
        pl := parseNumber (cellText cells 2)
        pvp := parseNumber (cellText cells 3)
        roe := parseNumber (cellText cells 16)
        roic := parseNumber (cellText cells 15)
        divYield := parseNumber (cellText cells 5)
        ebitEv := parseNumber (cellText cells 10)
        netProfit := parseNumber (cellText cells 13)
        liquidity := parseNumber (cellText cells 17) }

/-- Model of `scrapeFundamentus` on an already-fetched document: `none` models a
document whose `#resultado` table container is absent (the function
then returns the empty list); `some rows` models the `tbody tr` rows of
the table. -/
def scrapeTable : Option (List TableRow) → List ScrapedStock
  | none => []
  | some rows => rows.filterMap scrapeRow

/-- Model of `isLikelyStateOwned` (scraper.ts): case-insensitive keyword match
on the name, or exact match of the upper-cased ticker against the
allow-list. -/
def isLikelyStateOwned (name ticker : String) : Bool :=
  let stateKeywords := ["banco do brasil", "petrobras", "eletrobras", "caixa",
    "correios", "sabesp", "copel", "cemig", "telebras"]
  let stateTickers := ["BBAS3", "PETR3", "PETR4", "ELET3", "ELET6", "CXSE3",
    "SBSP3", "CPLE6", "CMIG4"]
  let lowerName := name.toLower
  let upperTicker := ticker.toUpper
  stateKeywords.any (fun k => containsSub k.data lowerName.data) ||
    stateTickers.any (fun t => t = upperTicker)

/-- A row of the `stocks` table (shared/schema.ts); also the shape of an
`InsertStock` payload.  `ticker` is the primary key. -/
structure Stock where
  ticker : String
  name : String
  sector : Option String
  subsector : Option String
  isStateOwned : Bool
deriving DecidableEq, Repr

/-- A row of the `fundamentals` table (shared/schema.ts), with its
serial `id` primary key.  Dates are ISO `YYYY-MM-DD` strings, whose
lexicographic order agrees with chronological order. -/
structure Fundamental where
  id : Nat
  ticker : String
  date : String
  pl : Option ℚ
  roe : Option ℚ
  pvp : Option ℚ
  divYield : Option ℚ
  netProfit : Option ℚ
  ebitEv : Option ℚ
  roic : Option ℚ
deriving DecidableEq, Repr

/-- An `InsertFundamental` payload: a `fundamentals` row without the
serial id. -/
structure InsertFundamental where
  ticker : String
  date : String
  pl : Option ℚ
  roe : Option ℚ
  pvp : Option ℚ
  divYield : Option ℚ
  netProfit : Option ℚ
  ebitEv : Option ℚ
  roic : Option ℚ
deriving DecidableEq, Repr

/-- The database: both tables in insertion order, plus the next serial
id for `fundamentals`. -/
structure DB where
  stocks : List Stock
  fundamentals : List Fundamental
  nextId : Nat
deriving DecidableEq, Repr

/-- Model of `createStock`: plain insert. -/
def createStock (db : DB) (s : Stock) : DB :=
  { db with stocks := db.stocks ++ [s] }

/-- The stored row built from an insert payload and a serial id. -/
def mkFund (i : Nat) (f : InsertFundamental) : Fundamental :=
  { id := i, ticker := f.ticker, date := f.date,
    pl := f.pl, roe := f.roe, pvp := f.pvp, divYield := f.divYield,
    netProfit := f.netProfit, ebitEv := f.ebitEv, roic := f.roic }

/-- Model of `addFundamental`: plain insert, drawing a fresh serial id. -/
def addFundamental (db : DB) (f : InsertFundamental) : DB :=
  { db with
    fundamentals := db.fundamentals ++ [mkFund db.nextId f]
    nextId := db.nextId + 1 }

/-- The `set` clause of `upsertStock`'s update branch: name, sector and
state-owned flag only — neither the ticker key nor the subsector. -/
def updateStockRow (s : Stock) (r : Stock) : Stock :=
  { r with name := s.name, sector := s.sector, isStateOwned := s.isStateOwned }

/-- Model of `upsertStock` (storage.ts): update the rows matching the ticker if
any exist, otherwise insert. -/
def upsertStock (db : DB) (s : Stock) : DB :=
  if db.stocks.any (fun r => r.ticker = s.ticker) then
    { db with
      stocks := db.stocks.map (fun r =>
        if r.ticker = s.ticker then updateStockRow s r else r) }
  else createStock db s

/-- The key predicate of `upsertFundamental`: same ticker and date. -/
def keyMatch (f : InsertFundamental) (r : Fundamental) : Bool :=
  r.ticker = f.ticker && r.date = f.date

/-- The `set` clause of `upsertFundamental`'s update branch: all seven
numeric fields; id, ticker and date are untouched. -/
def updateFundRow (f : InsertFundamental) (r : Fundamental) : Fundamental :=
  { r with
    pl := f.pl, roe := f.roe, pvp := f.pvp, divYield := f.divYield,
    netProfit := f.netProfit, ebitEv := f.ebitEv, roic := f.roic }

/-- The row transform of `upsertFundamental`'s UPDATE: apply the set
clause to the rows whose id matches the selected one. -/
def updIf (i : Nat) (f : InsertFundamental) (r : Fundamental) : Fundamental :=
  if r.id = i then updateFundRow f r else r

/-- Model of `upsertFundamental` (storage.ts): select the first row matching
(ticker, date); update the row with its id if found, insert otherwise. -/
def upsertFundamental (db : DB) (f : InsertFundamental) : DB :=
  match db.fundamentals.find? (keyMatch f) with
  | some ex => { db with fundamentals := db.fundamentals.map (updIf ex.id f) }
  | none => addFundamental db f

/-- The sort modes accepted by `getStocks`. -/
inductive SortMode where
  | magicFormula
  | ticker
deriving DecidableEq, Repr

/-- The filter object of `getStocks` (storage.ts).  `search` and
`sortBy` are optional; an empty search string is inactive (JS
truthiness of `filters.search`). -/
structure Filters where
  search : Option String
  maxPl : Option ℚ
  minRoe : Option ℚ
  maxPvp : Option ℚ
  minDivYield : Option ℚ
  excludeStateOwned : Bool
  sortBy : Option SortMode
deriving DecidableEq, Repr

/-- The stock-level WHERE conditions of `getStocks`: ILIKE substring
search on ticker or name (modelled as plain case-insensitive substring;
the claims never put SQL wildcards in the search term), and the
state-owned exclusion. -/
def stockLevelOk (fs : Filters) (st : Stock) : Bool :=
  (match fs.search with
   | none => true
   | some s =>
       if s = "" then true
       else containsSub s.toLower.data st.ticker.toLower.data ||
            containsSub s.toLower.data st.name.toLower.data) &&
  (if fs.excludeStateOwned then st.isStateOwned = false else true)

/-- Latest fundamental for a ticker: `ORDER BY date DESC LIMIT 1`, with
equal-date ties resolved to the earliest-inserted row (arbitrary but
consistent, as the spec allows). -/
def latestFor (db : DB) (t : String) : Option Fundamental :=
  (db.fundamentals.filter (fun r => r.ticker = t)).foldl
    (fun acc r =>
      match acc with
      | none => some r
      | some b => if decide (b.date < r.date) then some r else some b)
    none

/-- The per-metric filters of `getStocks` lines 84–87: a record is kept
only if each active bound has a non-null metric satisfying it. -/
def metricOk (fs : Filters) (l : Fundamental) : Bool :=
  (match fs.maxPl with
   | none => true
   | some m => match l.pl with | none => false | some v => decide (v ≤ m)) &&
  (match fs.minRoe with
   | none => true
   | some m => match l.roe with | none => false | some v => decide (m ≤ v)) &&
  (match fs.maxPvp with
   | none => true
   | some m => match l.pvp with | none => false | some v => decide (v ≤ m)) &&
  (match fs.minDivYield with
   | none => true
   | some m => match l.divYield with | none => false | some v => decide (m ≤ v))

/-- One element of the `results` array of `getStocks`: the stock spread
together with its latest fundamental, and the `magicRank` property that
the magic-formula branch attaches (`none` when not attached). -/
structure ResultRow where
  stock : Stock
  latest : Fundamental
  magicRank : Option Nat
deriving DecidableEq, Repr

/-- The filtered join of `getStocks` (steps 1–3): stock-level filters,
latest-fundamental lookup (skipping tickers with no history), then
metric filters, in the stored stock order. -/
def joinedResults (db : DB) (fs : Filters) : List ResultRow :=
  (db.stocks.filter (stockLevelOk fs)).filterMap (fun st =>
    match latestFor db st.ticker with
    | none => none
    | some l => if metricOk fs l then some ⟨st, l, none⟩ else none)

/-- Insert `x` after every element strictly preceding it: the insertion
step of a stable sort.  `lt a b` reads "`a` strictly precedes `b`"
(JS comparator returning a negative number). -/
def insertOrd (lt : α → α → Bool) (x : α) : List α → List α
  | [] => [x]
  | y :: ys => if lt y x then y :: insertOrd lt x ys else x :: y :: ys

/-- Stable sort, modelling JS `Array.prototype.sort` (stable per
ES2019): elements the comparator ties keep their relative order. -/
def ssort (lt : α → α → Bool) : List α → List α
  | [] => []
  | x :: xs => insertOrd lt x (ssort lt xs)

/-- ROIC sort key: `b.latest?.roic || 0` (null coalesces to 0). -/
def roicKey (r : ResultRow) : ℚ := r.latest.roic.getD 0

/-- EBIT/EV sort key: `b.latest?.ebitEv || 0`. -/
def ebitKey (r : ResultRow) : ℚ := r.latest.ebitEv.getD 0

/-- The sort `results.sort((a, b) => (b.latest?.roic || 0) - (a.latest?.roic || 0))`:
stable sort by ROIC descending. -/
def roicSorted (l : List ResultRow) : List ResultRow :=
  ssort (fun a b => decide (roicKey b < roicKey a)) l

/-- The sort `results.sort((a, b) => (b.latest?.ebitEv || 0) - (a.latest?.ebitEv || 0))`:
stable sort by EBIT/EV descending. -/
def ebitSorted (l : List ResultRow) : List ResultRow :=
  ssort (fun a b => decide (ebitKey b < ebitKey a)) l

/-- Rank lookup `new Map(list.map((s, i) => [s.ticker, i + 1])).get(t) || 0`: rank
of ticker `t` in `l` (1-based position; the last occurrence wins, as in
a JS Map built from duplicate keys; 0 when absent). -/
def mapRank (l : List ResultRow) (t : String) : Nat :=
  l.enum.foldl (fun acc p => if p.2.stock.ticker = t then p.1 + 1 else acc) 0

/-- The magic-formula branch of `getStocks`: stable sort by ROIC
descending and read off ranks; stable sort the result by EBIT/EV
descending and read off ranks; attach the summed rank; finally stable
sort by that composite ascending.  Note the final sort runs on the
array as left by the EBIT/EV sort, so composite ties keep EBIT/EV
descending order, not original input order. -/
def magicSort (l : List ResultRow) : List ResultRow :=
  let r1 := roicSorted l
  let r2 := ebitSorted r1
  let ranked := r2.map (fun s =>
    { s with magicRank := some (mapRank r1 s.stock.ticker + mapRank r2 s.stock.ticker) })
  ssort (fun a b => decide (a.magicRank.getD 0 < b.magicRank.getD 0)) ranked

/-- Model of `getStocks` (storage.ts): filtered join, then magic-formula ranking
or lexicographic ticker sort. -/
def getStocks (db : DB) (fs : Filters) : List ResultRow :=
  let results := joinedResults db fs
  match fs.sortBy with
  | some SortMode.magicFormula => magicSort results
  | _ => ssort (fun a b => decide (a.stock.ticker < b.stock.ticker)) results

/-- The `InsertFundamental` payload built in the scrape handler
(routes.ts): today's date, the scraped metrics, and EBIT/EV obtained by
inverting the scraped EV/EBIT — guarded by JS truthiness, so a null or
zero scraped value persists as null. -/
def snapshotOf (today : String) (s : ScrapedStock) : InsertFundamental :=
  { ticker := s.ticker, date := today,
    pl := s.pl, roe := s.roe, pvp := s.pvp, divYield := s.divYield,
    netProfit := s.netProfit,
    ebitEv := match s.ebitEv with
      | none => none
      | some v => if v = 0 then none else some (1 / v),
    roic := s.roic }

/-- The stock descriptor upserted by the scrape handler. -/
def descriptorOf (s : ScrapedStock) : Stock :=
  { ticker := s.ticker, name := s.name,
    sector := some (if s.sector = "" then "Unknown" else s.sector),
    subsector := none,
    isStateOwned := isLikelyStateOwned s.name s.ticker }

/-- The response JSON of the scrape endpoint; the three counters are
absent (`none`) in the zero-rows error response. -/
structure ScrapeResponse where
  status : Nat
  message : String
  scraped : Nat
  stocksCreated : Option Nat
  stocksUpdated : Option Nat
  fundamentalsCreated : Option Nat
deriving DecidableEq, Repr

/-- The per-stock body of the scrape handler's loop: upsert the
descriptor, classify it as created or updated by whether the ticker has
any fundamentals history yet, then upsert today's snapshot. -/
def processScraped (today : String) (acc : DB × Nat × Nat × Nat)
    (s : ScrapedStock) : DB × Nat × Nat × Nat :=
  let (db, created, updated, funds) := acc
  let db1 := upsertStock db (descriptorOf s)
  let hist := db1.fundamentals.filter (fun r => r.ticker = s.ticker)
  let (created, updated) :=
    if hist.length = 0 then (created + 1, updated) else (created, updated + 1)
  let db2 := upsertFundamental db1 (snapshotOf today s)
  (db2, created, updated, funds + 1)

/-- The POST `/api/scrape` handler (routes.ts) after the fetch: a 500
response with zero scraped count when no rows were extracted, otherwise
the upsert loop and a 200 response with the counters. -/
def handleScrape (db : DB) (today : String) (scraped : List ScrapedStock) :
    ScrapeResponse × DB :=
  if scraped.length = 0 then
    ({ status := 500, message := "No stocks found. The scraper may need to be updated.",
       scraped := 0, stocksCreated := none, stocksUpdated := none,
       fundamentalsCreated := none }, db)
  else
    let (db', c, u, f) := scraped.foldl (processScraped today) (db, 0, 0, 0)
    ({ status := 200, message := "Scraping completed successfully",
       scraped := scraped.length, stocksCreated := some c, stocksUpdated := some u,
       fundamentalsCreated := some f }, db')

/-- Per-(ticker, date) row count, the quantity the upsert idempotence
claim is about. -/
def fundKeyCount (db : DB) (f : InsertFundamental) : Nat :=
  (db.fundamentals.filter (keyMatch f)).length

/-! Concrete instances used by the claims' examples and witnesses. -/

/-- A filter object with nothing active. -/
def noFilters : Filters :=
  { search := none, maxPl := none, minRoe := none, maxPvp := none,
    minDivYield := none, excludeStateOwned := false, sortBy := none }

def stA : Stock :=
  { ticker := "AAAA3", name := "Alpha", sector := some "S", subsector := none,
    isStateOwned := false }

def stB : Stock :=
  { ticker := "BBBB3", name := "Beta", sector := some "S", subsector := none,
    isStateOwned := false }

def stC : Stock :=
  { ticker := "CCCC3", name := "Gamma", sector := some "S", subsector := none,
    isStateOwned := false }

/-- An all-null snapshot for a ticker and date, to be specialised. -/
def blankFund (i : Nat) (t d : String) : Fundamental :=
  { id := i, ticker := t, date := d, pl := none, roe := none, pvp := none,
    divYield := none, netProfit := none, ebitEv := none, roic := none }

/-- Snapshot A of the magic-formula example: ROIC 20, EBIT/EV 0.10. -/
def fuA : Fundamental :=
  { blankFund 1 "AAAA3" "2024-01-01" with ebitEv := some 0.10, roic := some 20 }

/-- Snapshot B of the magic-formula example: ROIC 15, EBIT/EV 0.20. -/
def fuB : Fundamental :=
  { blankFund 2 "BBBB3" "2024-01-01" with ebitEv := some 0.20, roic := some 15 }

/-- Snapshot C of the magic-formula example: ROIC 25, EBIT/EV 0.05. -/
def fuC : Fundamental :=
  { blankFund 3 "CCCC3" "2024-01-01" with ebitEv := some 0.05, roic := some 25 }

/-- The database of the magic-formula tie example: records A, B, C in
input order. -/
def dbMF : DB := { stocks := [stA, stB, stC], fundamentals := [fuA, fuB, fuC], nextId := 4 }

/-- Magic-formula sort with no filters active. -/
def fsMF : Filters := { noFilters with sortBy := some SortMode.magicFormula }

/-- Snapshots with ROE 10, 20 and null for the min-ROE filter example. -/
def fuRoeA : Fundamental := { blankFund 1 "AAAA3" "2024-01-01" with roe := some 10 }

def fuRoeB : Fundamental := { blankFund 2 "BBBB3" "2024-01-01" with roe := some 20 }

def fuRoeC : Fundamental := blankFund 3 "CCCC3" "2024-01-01"

/-- The database of the min-ROE filter example. -/
def dbRoe : DB :=
  { stocks := [stA, stB, stC], fundamentals := [fuRoeA, fuRoeB, fuRoeC], nextId := 4 }

/-- A `minRoe = 15` filter. -/
def fsRoe : Filters := { noFilters with minRoe := some 15 }

/-- Ticker cell of the extractor example's first row. -/
def wegeCell : Cell := { text := "WEGE3", linkTitle := none }

/-- An empty cell. -/
def emptyCell : Cell := { text := "", linkTitle := none }

/-- First row of the extractor example: ticker "WEGE3", P/L cell "25,50". -/
def rowWege : TableRow := [wegeCell, emptyCell, { text := "25,50", linkTitle := none }]

/-- Second row of the extractor example: empty ticker cell. -/
def rowNoTicker : TableRow := [emptyCell]

/-- A scraped record whose EV/EBIT cell normalized to 0. -/
def scrapedZeroEv : ScrapedStock :=
  { ticker := "ZERO3", name := "Zero", sector := "Unknown", pl := none, pvp := none,
    roe := none, roic := none, divYield := none, ebitEv := some 0, netProfit := none,
    liquidity := none }

/-- A scraped record whose EV/EBIT cell normalized to 4. -/
def scrapedFourEv : ScrapedStock :=
  { scrapedZeroEv with ticker := "FOUR3", name := "Four", ebitEv := some 4 }

/-- An empty database. -/
def dbEmpty : DB := { stocks := [], fundamentals := [], nextId := 1 }

/-- A snapshot payload for the upsert idempotence witness. -/
def fW : InsertFundamental :=
  { ticker := "WEGE3", date := "2024-01-01", pl := some 10, roe := some 20,
    pvp := none, divYield := none, netProfit := none, ebitEv := none, roic := none }

/-- A stored descriptor carrying a subsector. -/
def stSub : Stock :=
  { ticker := "SAPR4", name := "Sanepar", sector := some "Utilities",
    subsector := some "Water", isStateOwned := false }

/-- An upsert payload for the same ticker with a different subsector. -/
def stSubNew : Stock :=
  { ticker := "SAPR4", name := "Sanepar SA", sector := some "Utilities",
    subsector := some "Sanitation", isStateOwned := true }

/-- A database holding `stSub` only. -/
def dbSub : DB := { stocks := [stSub], fundamentals := [], nextId := 1 }


/-! The claims, their witnesses and counterexamples, and the helper
lemmas their proofs use. -/

/-- Numeric values of the ASCII digit characters, used to evaluate the
digit accumulator of `readDigits` on concrete inputs. -/
theorem digitToNat :
    ('0').toNat = 48 ∧ ('1').toNat = 49 ∧ ('2').toNat = 50 ∧ ('3').toNat = 51 ∧
    ('4').toNat = 52 ∧ ('5').toNat = 53 ∧ ('6').toNat = 54 ∧ ('7').toNat = 55 ∧
    ('8').toNat = 56 ∧ ('9').toNat = 57 := by
  refine ⟨?_, ?_, ?_, ?_, ?_, ?_, ?_, ?_, ?_, ?_⟩ <;> decide

/-- Claim C2: the numeric normalizer is a pure, deterministic function
from a raw cell string to a nullable rational with
`parseNumber "1.234,56" = 1234.56`, `parseNumber "15,3%" = 15.3`,
`parseNumber "7" = 7`, and `parseNumber` of `-`, the empty string and
`n/a` all null; purity holds by construction in the functional
embedding, stated as the trivial determinism conjunct. -/
theorem claim_C2_normalizer :
    parseNumber "1.234,56" = some (1234.56 : ℚ) ∧
    parseNumber "15,3%" = some (15.3 : ℚ) ∧
    parseNumber "7" = some (7 : ℚ) ∧
    parseNumber "-" = none ∧
    parseNumber "" = none ∧
    parseNumber "n/a" = none ∧
    ∀ s : String, parseNumber s = parseNumber s := by
  refine ⟨?_, ?_, ?_, by decide, by decide, by decide, fun s => rfl⟩ <;>
    norm_num +decide [parseNumber, cleanResidue, parseFloatQ, readDigits, readExp,
      trimChars, removeFirst, replaceFirst, isWS, digitToNat]

/-- Claim C8: whenever parsing the cleaned residue fails (the modelled
`parseFloat` returns `none` on non-numeric residue), `parseNumber`
returns null rather than raising an error; being a total function into
`Option`, the normalizer can never surface an error. -/
theorem claim_C8_parse_failure :
    ∀ s : String, parseFloatQ (cleanResidue s) = none → parseNumber s = none := by
  intro s h
  unfold parseNumber
  split
  · rfl
  · exact h

/-- Witness for claim C8 at the concrete unparseable cell `abc`. -/
theorem claim_C8_witness : parseNumber "abc" = none :=
  claim_C8_parse_failure "abc" (by decide)

/-- Row extraction fails exactly on rows whose trimmed ticker cell is
empty (a row with no cells has an empty ticker cell text). -/
theorem scrapeRow_none_iff (r : TableRow) :
    scrapeRow r = none ↔ trimS (cellText r 0) = "" := by
  cases r with
  | nil => simp [scrapeRow, cellText, trimS, trimChars]
  | cons c cs =>
    simp only [scrapeRow, List.length_cons]
    rw [if_neg (by simp)]
    by_cases h : trimS (cellText (c :: cs) 0) = ""
    · simp [h]
    · simp [h]


/-- The Brazilian-format cell `25,50` normalizes to 25.5. -/
theorem parse2550 : parseNumber "25,50" = some (25.5 : ℚ) := by
  norm_num +decide [parseNumber, cleanResidue, parseFloatQ, readDigits, readExp,
    trimChars, removeFirst, replaceFirst, isWS, digitToNat]

/-- Claim C3: every row whose ticker cell trims to the empty string is
excluded from the extractor output while all other rows yield one
record; in particular a two-row table whose first row has ticker cell
`WEGE3` and P/L cell `25,50` and whose second row has an empty ticker
cell yields exactly one record, with ticker `WEGE3` and P/L 25.5. -/
theorem claim_C3_extractor :
    (∀ r : TableRow, scrapeRow r = none ↔ trimS (cellText r 0) = "") ∧
    (∀ r1 r2 : TableRow,
      trimS (cellText r1 0) = "WEGE3" →
      cellText r1 2 = "25,50" →
      trimS (cellText r2 0) = "" →
      (scrapeTable (some [r1, r2])).map (fun s => (s.ticker, s.pl)) =
        [("WEGE3", some (25.5 : ℚ))]) := by
  refine ⟨scrapeRow_none_iff, ?_⟩
  intro r1 r2 h1 h2 h3
  have hr2 : scrapeRow r2 = none := (scrapeRow_none_iff r2).mpr h3
  cases r1 with
  | nil => simp [cellText, trimS, trimChars] at h1
  | cons c cs =>
    have hne : trimS (cellText (c :: cs) 0) ≠ "" := by rw [h1]; decide
    have hr1 : (scrapeRow (c :: cs)).map (fun s => (s.ticker, s.pl)) =
        some ("WEGE3", some (25.5 : ℚ)) := by
      simp only [scrapeRow, List.length_cons]
      rw [if_neg (by simp), if_neg hne]
      simp [h1, h2, parse2550]
    cases hsr : scrapeRow (c :: cs) with
    | none => rw [hsr] at hr1; simp at hr1
    | some rec =>
      rw [hsr] at hr1
      simp only [Option.map_some'] at hr1
      simp only [scrapeTable, List.filterMap_cons, hsr, hr2, List.filterMap_nil,
        List.map_cons, List.map_nil]
      simpa using hr1

/-- Witness for claim C3 at the concrete two-row table. -/
theorem claim_C3_witness :
    (scrapeTable (some [rowWege, rowNoTicker])).map (fun s => (s.ticker, s.pl)) =
      [("WEGE3", some (25.5 : ℚ))] :=
  claim_C3_extractor.2 rowWege rowNoTicker (by decide) rfl (by decide)

/-- Claim C9: with the results-table container absent the extractor
returns the empty list, and the scrape handler answers any zero-row
extraction with a 500 (non-200) status, a zero scraped count and the
descriptive error message. -/
theorem claim_C9_empty_scrape :
    scrapeTable none = [] ∧
    ∀ (db : DB) (today : String) (scraped : List ScrapedStock), scraped = [] →
      ((handleScrape db today scraped).1.status = 500 ∧
       (handleScrape db today scraped).1.status ≠ 200 ∧
       (handleScrape db today scraped).1.scraped = 0 ∧
       (handleScrape db today scraped).1.message =
         "No stocks found. The scraper may need to be updated.") := by
  refine ⟨rfl, ?_⟩
  rintro db today scraped rfl
  have h5 : (handleScrape db today []).1.status = 500 := rfl
  exact ⟨h5, by rw [h5]; decide, rfl, rfl⟩

/-- Witness for claim C9: the handler applied to the extraction result
of a document with no results table. -/
theorem claim_C9_witness :
    (handleScrape dbEmpty "2025-10-11" (scrapeTable none)).1.status = 500 ∧
    (handleScrape dbEmpty "2025-10-11" (scrapeTable none)).1.status ≠ 200 ∧
    (handleScrape dbEmpty "2025-10-11" (scrapeTable none)).1.scraped = 0 ∧
    (handleScrape dbEmpty "2025-10-11" (scrapeTable none)).1.message =
      "No stocks found. The scraper may need to be updated." :=
  claim_C9_empty_scrape.2 dbEmpty "2025-10-11" (scrapeTable none) rfl

/-- Counterexample to claim C4 as stated: for the concrete scraped
record `scrapedZeroEv` whose normalized EV/EBIT is 0 (non-null), the
persisted ebitEv is null, not the 1/x image of the value. -/
theorem claim_C4_counterexample :
    ¬ (∀ (today : String) (s : ScrapedStock),
        (snapshotOf today s).ebitEv = s.ebitEv.map (fun x => 1 / x)) := by
  intro h
  have := h "2025-01-01" scrapedZeroEv
  simp [snapshotOf, scrapedZeroEv] at this

/-- Claim C4 (amended): the persisted snapshot's ebitEv equals 1/x of
the normalized EV/EBIT x when x is non-null and nonzero, and is null
when x is null or zero (the JS truthiness guard `x ? 1/x : null`). -/
theorem claim_C4_inversion :
    ∀ (today : String) (s : ScrapedStock),
      (s.ebitEv = none → (snapshotOf today s).ebitEv = none) ∧
      (∀ x : ℚ, s.ebitEv = some x → x ≠ 0 → (snapshotOf today s).ebitEv = some (1 / x)) ∧
      (s.ebitEv = some 0 → (snapshotOf today s).ebitEv = none) := by
  intro today s
  refine ⟨fun h => by simp [snapshotOf, h], fun x hx hx0 => by simp [snapshotOf, hx, hx0],
    fun h => by simp [snapshotOf, h]⟩

/-- Witness for claim C4 (amended) at a scraped EV/EBIT of 4. -/
theorem claim_C4_witness :
    (snapshotOf "2025-01-01" scrapedFourEv).ebitEv = some (1 / (4 : ℚ)) :=
  (claim_C4_inversion "2025-01-01" scrapedFourEv).2.1 4 rfl (by norm_num)

/-- Claim C10: the persist-time inversion is guarded, so a scraped
EV/EBIT of 0 persists as null (never a division by zero), and a null
scraped EV/EBIT likewise persists as null. -/
theorem claim_C10_zero_guard :
    ∀ (today : String) (s : ScrapedStock),
      (s.ebitEv = some 0 → (snapshotOf today s).ebitEv = none) ∧
      (s.ebitEv = none → (snapshotOf today s).ebitEv = none) := by
  intro today s
  exact ⟨fun h => by simp [snapshotOf, h], fun h => by simp [snapshotOf, h]⟩

/-- Witness for claim C10 at the concrete zero-EV/EBIT record. -/
theorem claim_C10_witness :
    (snapshotOf "2025-01-01" scrapedZeroEv).ebitEv = none :=
  (claim_C10_zero_guard "2025-01-01" scrapedZeroEv).1 rfl

/-- Membership through the insertion step of the stable sort. -/
theorem mem_insertOrd {α : Type} (lt : α → α → Bool) (x : α) (l : List α) (a : α) :
    a ∈ insertOrd lt x l ↔ a = x ∨ a ∈ l := by
  induction l with
  | nil => simp [insertOrd]
  | cons y ys ih =>
    simp only [insertOrd]
    split
    · simp only [List.mem_cons, ih]
      tauto
    · simp only [List.mem_cons]

/-- Membership through the stable sort. -/
theorem mem_ssort {α : Type} (lt : α → α → Bool) (l : List α) (a : α) :
    a ∈ ssort lt l ↔ a ∈ l := by
  induction l with
  | nil => simp [ssort]
  | cons x xs ih => simp [ssort, mem_insertOrd, ih]

/-- Inserting into a list sorted by a key keeps it sorted. -/
theorem pairwise_insertOrd {α β : Type} [LinearOrder β] (k : α → β) (x : α) (l : List α)
    (h : l.Pairwise (fun a b => k a ≤ k b)) :
    (insertOrd (fun a b => decide (k a < k b)) x l).Pairwise (fun a b => k a ≤ k b) := by
  induction l with
  | nil => simp [insertOrd]
  | cons y ys ih =>
    rw [List.pairwise_cons] at h
    obtain ⟨hy, hys⟩ := h
    simp only [insertOrd]
    by_cases hlt : k y < k x
    · rw [if_pos (by simpa using hlt)]
      rw [List.pairwise_cons]
      refine ⟨?_, ih hys⟩
      intro a ha
      rcases (mem_insertOrd _ x ys a).mp ha with rfl | ha
      · exact le_of_lt hlt
      · exact hy a ha
    · rw [if_neg (by simpa using hlt)]
      rw [List.pairwise_cons]
      refine ⟨?_, List.pairwise_cons.mpr ⟨hy, hys⟩⟩
      intro a ha
      rcases List.mem_cons.mp ha with rfl | ha
      · exact le_of_not_lt hlt
      · exact le_trans (le_of_not_lt hlt) (hy a ha)

/-- The stable sort by a key comparator yields a key-sorted list. -/
theorem pairwise_ssort {α β : Type} [LinearOrder β] (k : α → β) (l : List α) :
    (ssort (fun a b => decide (k a < k b)) l).Pairwise (fun a b => k a ≤ k b) := by
  induction l with
  | nil => simp [ssort]
  | cons x xs ih => exact pairwise_insertOrd k x _ ih

/-- Every output row of the magic-formula branch comes from an input
row and carries the sum of its ROIC and EBIT/EV ranks. -/
theorem mem_magicSort {l : List ResultRow} {r : ResultRow} (hr : r ∈ magicSort l) :
    (∃ s ∈ l, r.stock = s.stock ∧ r.latest = s.latest) ∧
    r.magicRank = some (mapRank (roicSorted l) r.stock.ticker +
      mapRank (ebitSorted (roicSorted l)) r.stock.ticker) := by
  simp only [magicSort] at hr
  rw [mem_ssort, List.mem_map] at hr
  obtain ⟨s, hs, rfl⟩ := hr
  have hsl : s ∈ l := by
    rw [ebitSorted, mem_ssort] at hs
    rw [roicSorted, mem_ssort] at hs
    exact hs
  exact ⟨⟨s, hsl, rfl, rfl⟩, rfl⟩

/-- Every row surviving the filtered join passed the metric filters. -/
theorem metricOk_of_mem_joined {db : DB} {fs : Filters} {r : ResultRow}
    (hr : r ∈ joinedResults db fs) : metricOk fs r.latest = true := by
  unfold joinedResults at hr
  rw [List.mem_filterMap] at hr
  obtain ⟨st, _, hf⟩ := hr
  revert hf
  cases hl : latestFor db st.ticker with
  | none => simp
  | some l =>
    simp only
    by_cases hm : metricOk fs l = true
    · rw [if_pos hm]
      rintro ⟨rfl⟩
      exact hm
    · rw [if_neg hm]
      intro h
      exact absurd h (by simp)

/-- Every `getStocks` output row restates a filtered-join row's latest
snapshot, in every sort mode. -/
theorem latest_of_mem_getStocks {db : DB} {fs : Filters} {r : ResultRow}
    (hr : r ∈ getStocks db fs) : ∃ j ∈ joinedResults db fs, r.latest = j.latest := by
  unfold getStocks at hr
  cases hsb : fs.sortBy with
  | none =>
    rw [hsb, mem_ssort] at hr
    exact ⟨r, hr, rfl⟩
  | some m =>
    cases m with
    | magicFormula =>
      rw [hsb] at hr
      obtain ⟨⟨s, hs, _, hlat⟩, _⟩ := mem_magicSort hr
      exact ⟨s, hs, hlat⟩
    | ticker =>
      rw [hsb, mem_ssort] at hr
      exact ⟨r, hr, rfl⟩

/-- Passing the metric filters forces each actively filtered metric to
be non-null. -/
theorem metricOk_fields {fs : Filters} {l : Fundamental} (h : metricOk fs l = true) :
    (fs.maxPl ≠ none → l.pl ≠ none) ∧ (fs.minRoe ≠ none → l.roe ≠ none) ∧
    (fs.maxPvp ≠ none → l.pvp ≠ none) ∧ (fs.minDivYield ≠ none → l.divYield ≠ none) := by
  unfold metricOk at h
  simp only [Bool.and_eq_true] at h
  obtain ⟨⟨⟨h1, h2⟩, h3⟩, h4⟩ := h
  refine ⟨?_, ?_, ?_, ?_⟩
  · intro hne
    cases hmp : fs.maxPl with
    | none => exact absurd hmp hne
    | some m =>
      rw [hmp] at h1
      cases hv : l.pl with
      | none => rw [hv] at h1; exact absurd h1 (by simp)
      | some v => simp
  · intro hne
    cases hmp : fs.minRoe with
    | none => exact absurd hmp hne
    | some m =>
      rw [hmp] at h2
      cases hv : l.roe with
      | none => rw [hv] at h2; exact absurd h2 (by simp)
      | some v => simp
  · intro hne
    cases hmp : fs.maxPvp with
    | none => exact absurd hmp hne
    | some m =>
      rw [hmp] at h3
      cases hv : l.pvp with
      | none => rw [hv] at h3; exact absurd h3 (by simp)
      | some v => simp
  · intro hne
    cases hmp : fs.minDivYield with
    | none => exact absurd hmp hne
    | some m =>
      rw [hmp] at h4
      cases hv : l.divYield with
      | none => rw [hv] at h4; exact absurd h4 (by simp)
      | some v => simp

/-- Claim C7: whenever a numeric bound filter is active, every record
with a null value in the corresponding metric is dropped from the
`getStocks` output; in particular, with latest ROE values 10, 20 and
null, a min-ROE-15 filter yields only the ROE-20 record. -/
theorem claim_C7_null_filtered :
    (∀ (db : DB) (fs : Filters) (r : ResultRow), r ∈ getStocks db fs →
      (fs.maxPl ≠ none → r.latest.pl ≠ none) ∧
      (fs.minRoe ≠ none → r.latest.roe ≠ none) ∧
      (fs.maxPvp ≠ none → r.latest.pvp ≠ none) ∧
      (fs.minDivYield ≠ none → r.latest.divYield ≠ none)) ∧
    (getStocks dbRoe fsRoe).map (fun r => (r.stock.ticker, r.latest.roe)) =
      [("BBBB3", some (20 : ℚ))] := by
  constructor
  · intro db fs r hr
    obtain ⟨j, hj, hlat⟩ := latest_of_mem_getStocks hr
    rw [hlat]
    exact metricOk_fields (metricOk_of_mem_joined hj)
  · norm_num +decide [getStocks, joinedResults, stockLevelOk, latestFor, metricOk,
      ssort, insertOrd, dbRoe, fsRoe, noFilters, stA, stB, stC, fuRoeA, fuRoeB, fuRoeC,
      blankFund]

/-- Witness for claim C7 at the concrete ROE example database. -/
theorem claim_C7_witness :
    (fsRoe.maxPl ≠ none → (⟨stB, fuRoeB, none⟩ : ResultRow).latest.pl ≠ none) ∧
    (fsRoe.minRoe ≠ none → (⟨stB, fuRoeB, none⟩ : ResultRow).latest.roe ≠ none) ∧
    (fsRoe.maxPvp ≠ none → (⟨stB, fuRoeB, none⟩ : ResultRow).latest.pvp ≠ none) ∧
    (fsRoe.minDivYield ≠ none → (⟨stB, fuRoeB, none⟩ : ResultRow).latest.divYield ≠ none) :=
  claim_C7_null_filtered.1 dbRoe fsRoe ⟨stB, fuRoeB, none⟩ (by
    norm_num +decide [getStocks, joinedResults, stockLevelOk, latestFor, metricOk,
      ssort, insertOrd, dbRoe, fsRoe, noFilters, stA, stB, stC, fuRoeA, fuRoeB, fuRoeC,
      blankFund])

/-- Counterexample to claim C1 as stated: on the spec's own three-record
example the magic-formula output order is not the original input order
A, B, C. -/
theorem claim_C1_counterexample :
    (getStocks dbMF fsMF).map (fun r => r.stock.ticker) ≠ ["AAAA3", "BBBB3", "CCCC3"] := by
  have h : (getStocks dbMF fsMF).map (fun r => r.stock.ticker) =
      ["BBBB3", "AAAA3", "CCCC3"] := by
    norm_num +decide [getStocks, magicSort, joinedResults, stockLevelOk, latestFor,
      metricOk, roicSorted, ebitSorted, ssort, insertOrd, mapRank, roicKey, ebitKey,
      dbMF, stA, stB, stC, fuA, fuB, fuC, blankFund, fsMF, noFilters]
  rw [h]
  decide

/-- Claim C1 (amended): in magic-formula mode `getStocks` returns the
surviving records in ascending order of composite score, where each
record's score is its ROIC rank plus its EBIT/EV rank (rank 1 = highest,
nulls ranked as 0); composite ties keep the order left by the EBIT/EV
ranking sort (EBIT/EV descending), not the original input order, so the
example A:(20, 0.10), B:(15, 0.20), C:(25, 0.05) has ROIC ranks
A=2, B=3, C=1, EBIT/EV ranks A=2, B=1, C=3, all composite scores 4, and
output order B, A, C. -/
theorem claim_C1_magic_ranking :
    (∀ (db : DB) (fs : Filters), fs.sortBy = some SortMode.magicFormula →
      (getStocks db fs).Pairwise (fun a b => a.magicRank.getD 0 ≤ b.magicRank.getD 0) ∧
      ∀ r ∈ getStocks db fs,
        r.magicRank = some (mapRank (roicSorted (joinedResults db fs)) r.stock.ticker +
          mapRank (ebitSorted (roicSorted (joinedResults db fs))) r.stock.ticker)) ∧
    (mapRank (roicSorted (joinedResults dbMF fsMF)) "AAAA3" = 2 ∧
     mapRank (roicSorted (joinedResults dbMF fsMF)) "BBBB3" = 3 ∧
     mapRank (roicSorted (joinedResults dbMF fsMF)) "CCCC3" = 1) ∧
    (mapRank (ebitSorted (roicSorted (joinedResults dbMF fsMF))) "AAAA3" = 2 ∧
     mapRank (ebitSorted (roicSorted (joinedResults dbMF fsMF))) "BBBB3" = 1 ∧
     mapRank (ebitSorted (roicSorted (joinedResults dbMF fsMF))) "CCCC3" = 3) ∧
    (getStocks dbMF fsMF).map (fun r => (r.stock.ticker, r.magicRank)) =
      [("BBBB3", some 4), ("AAAA3", some 4), ("CCCC3", some 4)] := by
  refine ⟨?_, ?_, ?_, ?_⟩
  · intro db fs hsb
    have hg : getStocks db fs = magicSort (joinedResults db fs) := by
      simp [getStocks, hsb]
    constructor
    · rw [hg]
      unfold magicSort
      exact pairwise_ssort (fun r : ResultRow => r.magicRank.getD 0) _
    · intro r hr
      rw [hg] at hr
      exact (mem_magicSort hr).2
  all_goals
    norm_num +decide [getStocks, magicSort, joinedResults, stockLevelOk, latestFor,
      metricOk, roicSorted, ebitSorted, ssort, insertOrd, mapRank, roicKey, ebitKey,
      dbMF, stA, stB, stC, fuA, fuB, fuC, blankFund, fsMF, noFilters]

/-- Witness for claim C1 (amended): the general sortedness conjunct
applied to the concrete example database. -/
theorem claim_C1_witness :
    (getStocks dbMF fsMF).Pairwise (fun a b => a.magicRank.getD 0 ≤ b.magicRank.getD 0) :=
  (claim_C1_magic_ranking.1 dbMF fsMF rfl).1

/-- Selection with LIMIT 1 is the head of the filtered rows. -/
theorem find?_eq_head?_filter {α : Type} (p : α → Bool) (l : List α) :
    l.find? p = (l.filter p).head? := by
  induction l with
  | nil => rfl
  | cons x xs ih =>
    by_cases h : p x = true
    · rw [List.find?_cons_of_pos xs h, List.filter_cons_of_pos h]
      rfl
    · rw [List.find?_cons_of_neg xs h, List.filter_cons_of_neg h, ih]

/-- The update's set clause never changes the (ticker, date) key. -/
theorem keyMatch_updIf (f : InsertFundamental) (i : Nat) (r : Fundamental) :
    keyMatch f (updIf i f r) = keyMatch f r := by
  unfold updIf
  split <;> rfl

/-- Filtering by key commutes with the key-preserving row update. -/
theorem filter_key_map_updIf (f : InsertFundamental) (i : Nat) (l : List Fundamental) :
    (l.map (updIf i f)).filter (keyMatch f) = (l.filter (keyMatch f)).map (updIf i f) := by
  induction l with
  | nil => rfl
  | cons x xs ih =>
    simp only [List.map_cons, List.filter_cons, keyMatch_updIf]
    by_cases h : keyMatch f x
    · simp [h, ih]
    · simp [h, ih]

/-- A freshly inserted row matches its own (ticker, date) key. -/
theorem keyMatch_mkFund (f : InsertFundamental) (i : Nat) :
    keyMatch f (mkFund i f) = true := by
  simp [keyMatch, mkFund]

/-- The conditional row update never changes the serial id. -/
theorem updIf_id (f : InsertFundamental) (i : Nat) (r : Fundamental) :
    (updIf i f r).id = r.id := by
  unfold updIf
  split <;> rfl

/-- Claim C5: `upsertFundamental` is idempotent on the (ticker, date)
key: starting from a store with at most one row for the key, applying
the same snapshot twice leaves exactly one row for that key, and that
row holds the snapshot's key and all seven numeric fields. -/
theorem claim_C5_upsert_idempotent :
    ∀ (db : DB) (f : InsertFundamental), fundKeyCount db f ≤ 1 →
      fundKeyCount (upsertFundamental (upsertFundamental db f) f) f = 1 ∧
      ∀ r ∈ (upsertFundamental (upsertFundamental db f) f).fundamentals,
        keyMatch f r = true →
        r.ticker = f.ticker ∧ r.date = f.date ∧ r.pl = f.pl ∧ r.roe = f.roe ∧
        r.pvp = f.pvp ∧ r.divYield = f.divYield ∧ r.netProfit = f.netProfit ∧
        r.ebitEv = f.ebitEv ∧ r.roic = f.roic := by
  intro db f hcount
  cases hfil : db.fundamentals.filter (keyMatch f) with
  | nil =>
    have hfind : db.fundamentals.find? (keyMatch f) = none := by
      rw [find?_eq_head?_filter, hfil]; rfl
    have h1 : upsertFundamental db f = addFundamental db f := by
      unfold upsertFundamental
      rw [hfind]
    have hfil1 : (addFundamental db f).fundamentals.filter (keyMatch f) =
        [mkFund db.nextId f] := by
      simp [addFundamental, List.filter_append, hfil, keyMatch_mkFund]
    have hfind1 : (addFundamental db f).fundamentals.find? (keyMatch f) =
        some (mkFund db.nextId f) := by
      rw [find?_eq_head?_filter, hfil1]; rfl
    have h2 : upsertFundamental (addFundamental db f) f =
        { addFundamental db f with
          fundamentals := ((addFundamental db f).fundamentals.map
            (updIf (mkFund db.nextId f).id f)) } := by
      unfold upsertFundamental
      rw [hfind1]
    rw [h1, h2]
    have hfil2 : (((addFundamental db f).fundamentals.map
        (updIf (mkFund db.nextId f).id f)).filter (keyMatch f)) =
        [updIf (mkFund db.nextId f).id f (mkFund db.nextId f)] := by
      rw [filter_key_map_updIf, hfil1]; rfl
    constructor
    · show (((addFundamental db f).fundamentals.map
        (updIf (mkFund db.nextId f).id f)).filter (keyMatch f)).length = 1
      rw [hfil2]; rfl
    · intro r hr hkey
      have hrmem : r ∈ (((addFundamental db f).fundamentals.map
          (updIf (mkFund db.nextId f).id f)).filter (keyMatch f)) :=
        List.mem_filter.mpr ⟨hr, hkey⟩
      rw [hfil2] at hrmem
      have hre : r = updIf (mkFund db.nextId f).id f (mkFund db.nextId f) := by
        simpa using hrmem
      subst hre
      simp [updIf, updateFundRow, mkFund]
  | cons ex tail =>
    have htail : tail = [] := by
      have hlen : tail.length + 1 ≤ 1 := by
        simpa [fundKeyCount, hfil] using hcount
      have : tail.length = 0 := by omega
      exact List.length_eq_zero.mp this
    subst htail
    have hfind : db.fundamentals.find? (keyMatch f) = some ex := by
      rw [find?_eq_head?_filter, hfil]; rfl
    have hexkey : keyMatch f ex = true := by
      have hmem : ex ∈ db.fundamentals.filter (keyMatch f) := by
        rw [hfil]; exact List.mem_cons_self ex []
      exact (List.mem_filter.mp hmem).2
    have h1 : upsertFundamental db f =
        { db with fundamentals := db.fundamentals.map (updIf ex.id f) } := by
      unfold upsertFundamental
      rw [hfind]
    have hfil1 : ((db.fundamentals.map (updIf ex.id f)).filter (keyMatch f)) =
        [updIf ex.id f ex] := by
      rw [filter_key_map_updIf, hfil]; rfl
    have hfind1 : (db.fundamentals.map (updIf ex.id f)).find? (keyMatch f) =
        some (updIf ex.id f ex) := by
      rw [find?_eq_head?_filter, hfil1]; rfl
    have h2 : upsertFundamental
        { db with fundamentals := db.fundamentals.map (updIf ex.id f) } f =
        { db with fundamentals := ((db.fundamentals.map (updIf ex.id f)).map
            (updIf (updIf ex.id f ex).id f)) } := by
      unfold upsertFundamental
      rw [show ({ db with fundamentals := db.fundamentals.map (updIf ex.id f) } : DB).fundamentals = db.fundamentals.map (updIf ex.id f) from rfl, hfind1]
    rw [h1, h2, updIf_id]
    have hfil2 : (((db.fundamentals.map (updIf ex.id f)).map (updIf ex.id f)).filter
        (keyMatch f)) = [updIf ex.id f (updIf ex.id f ex)] := by
      rw [filter_key_map_updIf, hfil1]; rfl
    constructor
    · show ((((db.fundamentals.map (updIf ex.id f)).map (updIf ex.id f))).filter
        (keyMatch f)).length = 1
      rw [hfil2]; rfl
    · intro r hr hkey
      have hrmem : r ∈ (((db.fundamentals.map (updIf ex.id f)).map (updIf ex.id f)).filter
          (keyMatch f)) := List.mem_filter.mpr ⟨hr, hkey⟩
      rw [hfil2] at hrmem
      have hre : r = updIf ex.id f (updIf ex.id f ex) := by simpa using hrmem
      subst hre
      have hkey2 : ex.ticker = f.ticker ∧ ex.date = f.date := by
        simpa [keyMatch] using hexkey
      simp [updIf, updateFundRow, hkey2.1, hkey2.2]

/-- Witness for claim C5: a double upsert into the empty database. -/
theorem claim_C5_witness :
    fundKeyCount (upsertFundamental (upsertFundamental dbEmpty fW) fW) fW = 1 ∧
    ∀ r ∈ (upsertFundamental (upsertFundamental dbEmpty fW) fW).fundamentals,
      keyMatch fW r = true →
      r.ticker = fW.ticker ∧ r.date = fW.date ∧ r.pl = fW.pl ∧ r.roe = fW.roe ∧
      r.pvp = fW.pvp ∧ r.divYield = fW.divYield ∧ r.netProfit = fW.netProfit ∧
      r.ebitEv = fW.ebitEv ∧ r.roic = fW.roic :=
  claim_C5_upsert_idempotent dbEmpty fW (by decide)

/-- The stock update's set clause never changes the ticker key. -/
theorem ticker_updateStockRow (s r : Stock) :
    (updateStockRow s r).ticker = r.ticker := rfl

/-- Counterexample to claim C6 as stated: upserting `stSubNew` over the
stored `stSub` (same ticker, different subsector) leaves the old
subsector in place, so the update branch does not update subsector. -/
theorem claim_C6_counterexample :
    ¬ (∀ (db : DB) (s : Stock),
        db.stocks.any (fun r => r.ticker = s.ticker) = true →
        ∀ r ∈ (upsertStock db s).stocks, r.ticker = s.ticker →
          r.name = s.name ∧ r.sector = s.sector ∧ r.subsector = s.subsector ∧
          r.isStateOwned = s.isStateOwned) := by
  intro h
  have h2 := h dbSub stSubNew (by decide)
  exact absurd h2 (by decide)

/-- Claim C6 (amended): `upsertStock` appends the descriptor when its
ticker is absent and otherwise rewrites the matching row's name, sector
and state-owned flag in place, leaving subsector untouched; in either
case the stored ticker keys are unchanged except for the possible new
appended ticker. -/
theorem claim_C6_upsert :
    ∀ (db : DB) (s : Stock),
      (db.stocks.any (fun r => r.ticker = s.ticker) = false →
        (upsertStock db s).stocks = db.stocks ++ [s]) ∧
      (db.stocks.any (fun r => r.ticker = s.ticker) = true →
        (upsertStock db s).stocks = db.stocks.map (fun r =>
          if r.ticker = s.ticker then updateStockRow s r else r)) ∧
      ((upsertStock db s).stocks.map Stock.ticker = db.stocks.map Stock.ticker ∨
       (upsertStock db s).stocks.map Stock.ticker =
         db.stocks.map Stock.ticker ++ [s.ticker]) := by
  intro db s
  refine ⟨?_, ?_, ?_⟩
  · intro h
    simp [upsertStock, h, createStock]
  · intro h
    simp [upsertStock, h]
  · by_cases h : db.stocks.any (fun r => r.ticker = s.ticker) = true
    · left
      simp only [upsertStock, h, if_true, List.map_map]
      refine List.map_congr_left ?_
      intro r _
      by_cases hr : r.ticker = s.ticker
      · simp [Function.comp, hr, ticker_updateStockRow]
      · simp [Function.comp, hr]
    · right
      rw [Bool.not_eq_true] at h
      simp [upsertStock, h, createStock]

/-- Witness for claim C6 (amended): the update branch on the concrete
subsector example. -/
theorem claim_C6_witness :
    (upsertStock dbSub stSubNew).stocks = dbSub.stocks.map (fun r =>
      if r.ticker = stSubNew.ticker then updateStockRow stSubNew r else r) :=
  (claim_C6_upsert dbSub stSubNew).2.1 (by decide)

end Scraper
